import Mathlib

/-!
Verification of the text-normalization, entity-resolution and
temporal-statistics core of the sumo_project repository.

Raw text fields are modelled as `List Char` (the repository manipulates
Python unicode strings); calendar timestamps as `SumoDate` records with a
proleptic-Gregorian day number; fallible operations (Python exceptions)
as `Option`/`Except`.  Floating-point arithmetic is modelled exactly over
`ℚ` and `ℝ` (the exponential decay curve needs real powers).
-/

/-! ## Generic character-list utilities (Python string primitives) -/

/-- Python substring containment `needle in hay` on character lists. -/
def subIn (needle hay : List Char) : Bool :=
  match hay with
  | [] => needle.isEmpty
  | _ :: t => needle.isPrefixOf hay || subIn needle t

/-- Python `str.split(sep)` for a one-character separator: splits at every
occurrence and keeps empty fields. -/
def splitOnChar (sep : Char) : List Char → List (List Char)
  | [] => [[]]
  | c :: t =>
    if c = sep then [] :: splitOnChar sep t
    else
      match splitOnChar sep t with
      | [] => [[c]]
      | h :: r => (c :: h) :: r

/-- Python `str.strip()`: remove leading and trailing whitespace. -/
def trimWs (l : List Char) : List Char :=
  ((l.dropWhile Char.isWhitespace).reverse.dropWhile Char.isWhitespace).reverse

/-- Python `s.split(' (')[0]`: the prefix before the first occurrence of
the two-character separator `" ("`. -/
def takeBeforeParen : List Char → List Char
  | [] => []
  | ' ' :: '(' :: _ => []
  | c :: t => c :: takeBeforeParen t

/-- Value of a decimal digit character. -/
def digitVal (c : Char) : ℕ := c.toNat - 48

/-- Accumulator pass of decimal-number parsing. -/
def parseNatAux : List Char → ℕ → Option ℕ
  | [], acc => some acc
  | c :: t, acc => if c.isDigit then parseNatAux t (10 * acc + digitVal c) else none

/-- Python `int(s)` restricted to the plain nonnegative digit strings that
appear in rank labels: `none` models the `ValueError` on anything else. -/
def parseNatChars (l : List Char) : Option ℕ :=
  match l with
  | [] => none
  | _ => parseNatAux l 0

theorem parseNatAux_digits {l : List Char} {acc n : ℕ}
    (h : parseNatAux l acc = some n) : ∀ c ∈ l, c.isDigit := by
  induction l generalizing acc with
  | nil => intro c hc; cases hc
  | cons a t ih =>
    intro c hc
    simp only [parseNatAux] at h
    by_cases ha : a.isDigit
    · rw [if_pos ha] at h
      rcases List.mem_cons.mp hc with rfl | hc
      · exact ha
      · exact ih h c hc
    · rw [if_neg ha] at h; cases h

theorem parseNatChars_digits {l : List Char} {n : ℕ}
    (h : parseNatChars l = some n) : ∀ c ∈ l, c.isDigit := by
  cases l with
  | nil => intro c hc; cases hc
  | cons a t => exact parseNatAux_digits h

theorem parseNatChars_ne_nil {l : List Char} {n : ℕ}
    (h : parseNatChars l = some n) : l ≠ [] := by
  intro hl; subst hl; simp [parseNatChars] at h

/-! Facts about `subIn`. -/

theorem mem_of_isPrefixOf {n h : List Char} (hp : n.isPrefixOf h = true) :
    ∀ c ∈ n, c ∈ h := by
  induction n generalizing h with
  | nil => intro c hc; cases hc
  | cons a t ih =>
    cases h with
    | nil => simp [List.isPrefixOf] at hp
    | cons b s =>
      simp only [List.isPrefixOf, Bool.and_eq_true, beq_iff_eq] at hp
      intro c hc
      rcases List.mem_cons.mp hc with rfl | hc
      · exact hp.1 ▸ List.mem_cons_self _ _
      · exact List.mem_cons_of_mem _ (ih hp.2 c hc)

theorem subIn_subset {n h : List Char} (hs : subIn n h = true) :
    ∀ c ∈ n, c ∈ h := by
  induction h with
  | nil =>
    simp only [subIn, List.isEmpty_iff] at hs
    subst hs; intro c hc; cases hc
  | cons b t ih =>
    simp only [subIn, Bool.or_eq_true] at hs
    rcases hs with hs | hs
    · exact mem_of_isPrefixOf hs
    · intro c hc; exact List.mem_cons_of_mem _ (ih hs c hc)

/-- To refute substring containment it is enough to exhibit one character
of the needle that the hay misses. -/
theorem subIn_eq_false {n h : List Char} (c : Char) (hcn : c ∈ n) (hch : c ∉ h) :
    subIn n h = false := by
  by_contra hb
  rw [Bool.not_eq_false] at hb
  exact hch (subIn_subset hb c hcn)

theorem subIn_append_self (n r : List Char) : subIn n (n ++ r) = true := by
  cases n with
  | nil => cases r <;> simp [subIn]
  | cons a t =>
    have hp : (a :: t).isPrefixOf (a :: t ++ r) = true := by
      rw [ List.isPrefixOf_iff_prefix]
      exact ⟨r, rfl⟩
    simp [subIn, hp]

/-! Facts about `splitOnChar`. -/

theorem splitOnChar_no_sep {sep : Char} {l : List Char} (h : sep ∉ l) :
    splitOnChar sep l = [l] := by
  induction l with
  | nil => rfl
  | cons c t ih =>
    have hc : ¬ c = sep := fun hcs => h (hcs ▸ List.mem_cons_self _ _)
    have ht : sep ∉ t := fun hst => h (List.mem_cons_of_mem _ hst)
    simp [splitOnChar, hc, ih ht]

theorem splitOnChar_append {sep : Char} {w1 w2 : List Char}
    (h1 : sep ∉ w1) (h2 : sep ∉ w2) :
    splitOnChar sep (w1 ++ sep :: w2) = [w1, w2] := by
  induction w1 with
  | nil => simp [splitOnChar, splitOnChar_no_sep h2]
  | cons c t ih =>
    have hc : ¬ c = sep := fun hcs => h1 (hcs ▸ List.mem_cons_self _ _)
    have ht : sep ∉ t := fun hst => h1 (List.mem_cons_of_mem _ hst)
    simp only [List.cons_append, splitOnChar, if_neg hc]
    rw [List.append_eq, ih ht]

/-! ## Calendar model -/

/-- A Python `datetime` restricted to its date part (the repository only
ever stores dates; `strptime` defaults missing month/day to 1). -/
structure SumoDate where
  year : ℕ
  month : ℕ
  day : ℕ
deriving DecidableEq, Repr

/-- Proleptic-Gregorian day number (standard days-from-civil algorithm),
so that differences of `toRataDie` values are the `timedelta.days` of
Python datetime subtraction. -/
def toRataDie (dt : SumoDate) : ℤ :=
  let y : ℤ := if dt.month ≤ 2 then (dt.year : ℤ) - 1 else (dt.year : ℤ)
  let era : ℤ := (if 0 ≤ y then y else y - 399) / 400
  let yoe : ℤ := y - era * 400
  let mp : ℤ := ((dt.month : ℤ) + 9) % 12
  let doy : ℤ := (153 * mp + 2) / 5 + (dt.day : ℤ) - 1
  let doe : ℤ := yoe * 365 + yoe / 4 - yoe / 100 + doy
  era * 146097 + doe - 719468

/-- `(a - b).days` of Python datetime subtraction. -/
def tdeltaDays (a b : SumoDate) : ℤ := toRataDie a - toRataDie b

/-- `float(tdelta.days) / 365.25`, modelled exactly over `ℚ`. -/
def yearsBetween (a b : SumoDate) : ℚ := (tdeltaDays a b : ℚ) / 365.25

/-! ## Entity resolver (`database_ops.match_ID`) -/

/-- One row of the `all_rikishi` reference table, restricted to the
columns `match_ID` reads. -/
structure Profile where
  shikona : List Char
  sumo_stable : List Char
  bday : SumoDate
  debut : SumoDate
  height : ℚ
  weight : ℚ
  rikishi_ID : ℤ
deriving DecidableEq

/-- The statistics returned by the tier-3 live profile re-fetch
(`rikishi_scrape.basic_scrape`), restricted to the fields `match_ID`
uses afterwards. -/
structure FetchStats where
  shikona : List Char
  bday : SumoDate
  height : ℚ
  weight : ℚ
  sumo_stable : List Char
  debut : SumoDate

/-- Outcomes of `match_ID` that are not a successful identifier:
the final `raise Exception('Could not find sumo ID for: ' + shikona)`
(carrying the competitor name) and the `ValueError` that
`.item()` raises when the tier-3 filter is not a singleton. -/
inductive MatchErr where
  | unresolved (name : List Char)
  | itemErr
deriving DecidableEq

/-- Tier-1 filter: name substring AND affiliation substring. -/
def tier1Filter (tbl : List Profile) (shikona stable : List Char) : List Profile :=
  tbl.filter (fun p => subIn shikona p.shikona && subIn stable p.sumo_stable)

/-- Tier-2 filter: tier-1 conditions plus birth and debut dates within
365 days (the source compares `total_seconds`, which for midnight dates
is the day difference scaled by 86400). -/
def tier2Filter (tbl : List Profile) (shikona stable : List Char)
    (bday debut : SumoDate) : List Profile :=
  tbl.filter (fun p => subIn shikona p.shikona && subIn stable p.sumo_stable
    && decide (|tdeltaDays bday p.bday| ≤ 365)
    && decide (|tdeltaDays debut p.debut| ≤ 365))

/-- Tier-3 filter: exact equality on the re-fetched profile fields. -/
def tier3Filter (tbl : List Profile) (st : FetchStats) : List Profile :=
  tbl.filter (fun p => p.shikona == st.shikona && p.bday == st.bday
    && p.height == st.height && p.weight == st.weight
    && p.sumo_stable == st.sumo_stable && p.debut == st.debut)

/-- `database_ops.match_ID`: three escalating tiers; a unique match at a
tier returns that row's identifier, more than one escalates, zero falls
through to the fatal unresolved-identity error naming the competitor.
The tier-3 network re-fetch is an injected collaborator `fetch`. -/
def match_ID (shikona stable : List Char) (bday debut : SumoDate)
    (tbl : List Profile) (fetch : Unit → FetchStats) : Except MatchErr ℤ :=
  match tier1Filter tbl shikona stable with
  | [p] => .ok p.rikishi_ID
  | [] => .error (.unresolved shikona)
  | _ :: _ :: _ =>
    match tier2Filter tbl shikona stable bday debut with
    | [q] => .ok q.rikishi_ID
    | [] => .error (.unresolved shikona)
    | _ :: _ :: _ =>
      let st := fetch ()
      match tier3Filter tbl st with
      | [r] => .ok r.rikishi_ID
      | _ => .error .itemErr

/-- C9: a unique tier-1 match returns that row's identifier, and the
result does not depend on the date evidence (tier 2) nor on the live
re-fetch collaborator (tier 3). -/
theorem match_ID_tier1_unique (shikona stable : List Char) (bday debut : SumoDate)
    (tbl : List Profile) (fetch : Unit → FetchStats) (p : Profile)
    (h : tier1Filter tbl shikona stable = [p]) :
    match_ID shikona stable bday debut tbl fetch = .ok p.rikishi_ID ∧
    (∀ (bday' debut' : SumoDate) (fetch' : Unit → FetchStats),
      match_ID shikona stable bday' debut' tbl fetch' = .ok p.rikishi_ID) := by
  constructor
  · unfold match_ID; rw [h]
  · intro bday' debut' fetch'; unfold match_ID; rw [h]

/-- C9 witness: a concrete one-row table resolved at tier 1. -/
theorem match_ID_tier1_unique_witness :
    match_ID ("Hakuho".toList) ("Miyagino".toList) ⟨1985, 3, 11⟩ ⟨2001, 3, 1⟩
      [⟨"Hakuho Sho".toList, "Miyagino".toList, ⟨1985, 3, 11⟩, ⟨2001, 3, 1⟩,
        192, 155, 1123⟩]
      (fun _ => ⟨[], ⟨1, 1, 1⟩, 0, 0, [], ⟨1, 1, 1⟩⟩) =
      .ok 1123 :=
  (match_ID_tier1_unique ("Hakuho".toList) ("Miyagino".toList) ⟨1985, 3, 11⟩
    ⟨2001, 3, 1⟩
    [⟨"Hakuho Sho".toList, "Miyagino".toList, ⟨1985, 3, 11⟩, ⟨2001, 3, 1⟩,
      192, 155, 1123⟩]
    (fun _ => ⟨[], ⟨1, 1, 1⟩, 0, 0, [], ⟨1, 1, 1⟩⟩)
    ⟨"Hakuho Sho".toList, "Miyagino".toList, ⟨1985, 3, 11⟩, ⟨2001, 3, 1⟩,
      192, 155, 1123⟩ (by decide)).1

/-- C10: a tier-1 filter matching zero rows fails immediately with the
unresolved-identity error naming the competitor, independently of dates
and of the fetch collaborator; and the later tiers can only influence the
result when the current tier matched strictly more than one row. -/
theorem match_ID_tier1_empty (shikona stable : List Char) (bday debut : SumoDate)
    (tbl : List Profile) (fetch : Unit → FetchStats) :
    (tier1Filter tbl shikona stable = [] →
      match_ID shikona stable bday debut tbl fetch = .error (.unresolved shikona) ∧
      (∀ (bday' debut' : SumoDate) (fetch' : Unit → FetchStats),
        match_ID shikona stable bday' debut' tbl fetch' =
          .error (.unresolved shikona))) ∧
    ((tier1Filter tbl shikona stable).length ≤ 1 →
      ∀ (bday' debut' : SumoDate) (fetch' : Unit → FetchStats),
        match_ID shikona stable bday' debut' tbl fetch' =
          match_ID shikona stable bday debut tbl fetch) ∧
    ((tier2Filter tbl shikona stable bday debut).length ≤ 1 →
      ∀ fetch' : Unit → FetchStats,
        match_ID shikona stable bday debut tbl fetch' =
          match_ID shikona stable bday debut tbl fetch) := by
  refine ⟨fun h1 => ⟨?_, fun bday' debut' fetch' => ?_⟩, fun hle bday' debut' fetch' => ?_, fun h2 fetch' => ?_⟩
  · unfold match_ID; rw [h1]
  · unfold match_ID; rw [h1]
  · unfold match_ID
    match hm : tier1Filter tbl shikona stable with
    | [p] => rfl
    | [] => rfl
    | p :: q :: r => rw [hm] at hle; simp at hle
  · unfold match_ID
    match hm : tier1Filter tbl shikona stable with
    | [p] => rfl
    | [] => rfl
    | p :: q :: r =>
      match hm2 : tier2Filter tbl shikona stable bday debut with
      | [u] => rfl
      | [] => rfl
      | u :: v :: w => rw [hm2] at h2; simp at h2

/-- C10 witness: the empty table fails at tier 1 with the naming error. -/
theorem match_ID_tier1_empty_witness :
    match_ID ("Hakuho".toList) ("Miyagino".toList) ⟨1985, 3, 11⟩ ⟨2001, 3, 1⟩
      [] (fun _ => ⟨[], ⟨1, 1, 1⟩, 0, 0, [], ⟨1, 1, 1⟩⟩) =
      .error (.unresolved ("Hakuho".toList)) :=
  ((match_ID_tier1_empty _ _ _ _ _ _).1 (by decide)).1

/-! ## Feature assembler (`feature_generation.py`, order branch) -/

/-- One row of the feature DataFrame. -/
structure FeatureRow where
  height_diff : ℚ
  weight_diff : ℚ
  age_diff : ℚ
  active_diff : ℚ
  rank_diff : ℚ
  h2h_diff : ℚ
  id1 : ℤ
  id2 : ℤ
  label : ℕ
deriving DecidableEq

/-- The `order` branch of the feature-generation loop: `order = 1` keeps
the sumo order, `order = 2` swaps it (negating the five continuous
differences and `h2h_diff`, exchanging identifiers).  An empty feature
dict (outcome pair not a clean win/loss) is `none`. -/
def feature_dict (order : ℕ)
    (height_diff weight_diff age_diff active_diff rank_diff h2h_diff : ℚ)
    (ID1 ID2 : ℤ) (outcome1 outcome2 : List Char) : Option FeatureRow :=
  if order = 1 then
    if outcome1 = "shiro".toList ∧ outcome2 = "kuro".toList then
      some ⟨height_diff, weight_diff, age_diff, active_diff, rank_diff, h2h_diff,
        ID1, ID2, 1⟩
    else if outcome1 = "kuro".toList ∧ outcome2 = "shiro".toList then
      some ⟨height_diff, weight_diff, age_diff, active_diff, rank_diff, h2h_diff,
        ID1, ID2, 0⟩
    else none
  else if order = 2 then
    if outcome2 = "shiro".toList ∧ outcome1 = "kuro".toList then
      some ⟨-height_diff, -weight_diff, -age_diff, -active_diff, -rank_diff,
        -h2h_diff, ID2, ID1, 1⟩
    else if outcome2 = "kuro".toList ∧ outcome1 = "shiro".toList then
      some ⟨-height_diff, -weight_diff, -age_diff, -active_diff, -rank_diff,
        -h2h_diff, ID2, ID1, 0⟩
    else none
  else none

/-- The transformation named by the claim: negate all continuous
difference fields and exchange the two identifiers (the label is not
mentioned, hence kept). -/
def swapRow (r : FeatureRow) : FeatureRow :=
  ⟨-r.height_diff, -r.weight_diff, -r.age_diff, -r.active_diff, -r.rank_diff,
    -r.h2h_diff, r.id2, r.id1, r.label⟩

/-- The swap transformation together with complementing the binary
label. -/
def swapRowFlip (r : FeatureRow) : FeatureRow :=
  ⟨-r.height_diff, -r.weight_diff, -r.age_diff, -r.active_diff, -r.rank_diff,
    -r.h2h_diff, r.id2, r.id1, 1 - r.label⟩

/-- C3 counterexample: on a clean-outcome match, negating the continuous
fields and exchanging the identifiers of the swap-forced row does NOT
reproduce the unswapped row — the binary label differs (1 vs 0). -/
theorem feature_dict_swap_claim_false :
    ¬ ((feature_dict 2 1 2 3 4 5 6 10 20 ("shiro".toList) ("kuro".toList)).map
        swapRow =
      feature_dict 1 1 2 3 4 5 6 10 20 ("shiro".toList) ("kuro".toList)) := by
  decide

/-- C3 amended: for any qualifying match (clean win/loss outcomes), the
swap-forced-true row, after negating all continuous difference fields,
exchanging the identifiers AND complementing the binary label, equals the
swap-forced-false row. -/
theorem feature_dict_swap_flip (height_diff weight_diff age_diff active_diff
    rank_diff h2h_diff : ℚ) (ID1 ID2 : ℤ) (outcome1 outcome2 : List Char)
    (hclean : (outcome1 = "shiro".toList ∧ outcome2 = "kuro".toList) ∨
      (outcome1 = "kuro".toList ∧ outcome2 = "shiro".toList)) :
    (feature_dict 2 height_diff weight_diff age_diff active_diff rank_diff
        h2h_diff ID1 ID2 outcome1 outcome2).map swapRowFlip =
      feature_dict 1 height_diff weight_diff age_diff active_diff rank_diff
        h2h_diff ID1 ID2 outcome1 outcome2 := by
  have hsk : ("shiro".toList : List Char) ≠ "kuro".toList := by decide
  rcases hclean with ⟨h1, h2⟩ | ⟨h1, h2⟩ <;> subst h1 <;> subst h2 <;>
    simp [feature_dict, swapRowFlip, hsk, hsk.symm]

/-- C3 amended witness: concrete qualifying match. -/
theorem feature_dict_swap_flip_witness :
    (feature_dict 2 1 2 3 4 5 6 10 20 ("shiro".toList) ("kuro".toList)).map
        swapRowFlip =
      feature_dict 1 1 2 3 4 5 6 10 20 ("shiro".toList) ("kuro".toList) :=
  feature_dict_swap_flip 1 2 3 4 5 6 10 20 ("shiro".toList) ("kuro".toList)
    (Or.inl ⟨rfl, rfl⟩)

/-! ## Body-specification parser (`data_extraction.extract_body_specs`) -/

/-- Character class `[0-9.]`. -/
def isDigitDotChar (c : Char) : Bool := c.isDigit || c = '.'

/-- The regular expression `^([0-9.]+)\scm\s([0-9.]+)\skg$` (greedy
matching; the character classes are disjoint from the literals, so no
backtracking can occur). -/
def matchBodyRe (l : List Char) : Option (List Char × List Char) :=
  let g1 := l.takeWhile isDigitDotChar
  let r1 := l.drop g1.length
  if g1 = [] then none
  else
    match r1 with
    | c1 :: 'c' :: 'm' :: c2 :: rest =>
      if c1.isWhitespace && c2.isWhitespace then
        let g2 := rest.takeWhile isDigitDotChar
        let r2 := rest.drop g2.length
        if g2 = [] then none
        else
          match r2 with
          | c3 :: 'k' :: 'g' :: [] => if c3.isWhitespace then some (g1, g2) else none
          | _ => none
      else none
    | _ => none

/-- Numerator and denominator of the value of a `[0-9.]+` string under
Python `float(s)`: defined iff the string has at most one dot and at
least one digit (`ValueError` otherwise, modelled as `none`). -/
def pyFloatParts (l : List Char) : Option (ℕ × ℕ) :=
  if l.count '.' > 1 then none
  else if l.filter Char.isDigit = [] then none
  else
    let intPart := l.takeWhile (fun c => c ≠ '.')
    let fracPart := (l.dropWhile (fun c => c ≠ '.')).drop 1
    some ((intPart ++ fracPart).foldl (fun a c => 10 * a + digitVal c) 0,
      10 ^ fracPart.length)

/-- Python `float(s)` on a nonempty `[0-9.]+` string. -/
def pyFloatDigitsDot (l : List Char) : Option ℚ :=
  (pyFloatParts l).map (fun p => (p.1 : ℚ) / (p.2 : ℚ))

/-- `data_extraction.extract_body_specs`: on a regex match the two groups
are converted with `float(...)` inside `try/except TypeError` blocks.
`float` applied to a matched group (always a `str`) can only raise
`ValueError`, which the handler does not catch, so a malformed numeric
field propagates an exception (`.error`). -/
def extract_body_specs (ht_wt : List Char) : Except Unit (Option ℚ × Option ℚ) :=
  match matchBodyRe ht_wt with
  | none => .ok (none, none)
  | some (g1, g2) =>
    match pyFloatDigitsDot g1 with
    | none => .error ()
    | some h =>
      match pyFloatDigitsDot g2 with
      | none => .error ()
      | some w => .ok (some h, some w)

deriving instance DecidableEq for Except

/-- C8: the pattern does match `'1.2.3 cm 100 kg'`, but the height field
`1.2.3` is not a valid float and the resulting `ValueError` escapes
(`except TypeError` never fires on a string argument), contradicting the
never-throws contract; well-formed input is parsed normally. -/
theorem extract_body_specs_raises :
    extract_body_specs ("1.2.3 cm 100 kg".toList) = .error () ∧
    (matchBodyRe ("1.2.3 cm 100 kg".toList)).isSome = true ∧
    extract_body_specs ("192 cm 159.2 kg".toList) =
      .ok (some 192, some (159.2 : ℚ)) := by
  refine ⟨by decide, by decide, ?_⟩
  have h1 : matchBodyRe ("192 cm 159.2 kg".toList) =
      some ("192".toList, "159.2".toList) := by decide
  have h2 : pyFloatParts ("192".toList) = some (192, 1) := by decide
  have h3 : pyFloatParts ("159.2".toList) = some (1592, 10) := by decide
  unfold extract_body_specs
  rw [h1]
  simp only [pyFloatDigitsDot, h2, h3, Option.map_some']
  norm_num

/-! ## Bout-time rank parser (`data_extraction.extract_h2h_rank`) -/

/-- Character class `[a-zA-z]` exactly as written in the source pattern
(the typo makes it the contiguous range `'A'..'z'`, which also contains
the six characters between `'Z'` and `'a'`). -/
def isAzTypo (c : Char) : Bool := 'A' ≤ c && c ≤ 'z'

/-- Character class `[a-zA-Z]`. -/
def isAsciiLetter (c : Char) : Bool := ('A' ≤ c && c ≤ 'Z') || ('a' ≤ c && c ≤ 'z')

/-- The regular expression `^([a-zA-z]+)(\d+)(?:[a-zA-Z]+)$`: a leading
letter run, a digit run, and a nonempty trailing letter run reaching the
end (the classes are digit-free, so greedy matching needs no
backtracking).  Returns the two captured groups. -/
def matchRankRe (tok : List Char) : Option (List Char × List Char) :=
  let g1 := tok.takeWhile isAzTypo
  let r1 := tok.drop g1.length
  let g2 := r1.takeWhile Char.isDigit
  let r2 := r1.drop g2.length
  if g1 ≠ [] && g2 ≠ [] && !r2.isEmpty && r2.all isAsciiLetter then
    some (g1, g2)
  else none

/-- The fixed tier-code abbreviation table. -/
def abbrevList : List (List Char) :=
  ["Y".toList, "O".toList, "S".toList, "K".toList, "M".toList, "J".toList,
    "Ms".toList, "Sd".toList, "Jd".toList, "Jk".toList]

/-- The corresponding full tier names. -/
def fullList : List (List Char) :=
  ["Yokozuna".toList, "Ozeki".toList, "Sekiwake".toList, "Komusubi".toList,
    "Maegashira".toList, "Juryo".toList, "Makushita".toList, "Sandanme".toList,
    "Jonidan".toList, "Jonokuchi".toList]

/-- `data_extraction.extract_h2h_rank`: strip, take the token before the
first space, match the rank pattern; on a match, look the tier code up
with `abbrev_list.index(...)`, which raises `ValueError` (modelled as
`.error ()`) when the code is absent from the table; no pattern match
yields `None` (absent). -/
def extract_h2h_rank (rank_raw : List Char) : Except Unit (Option (List Char)) :=
  match matchRankRe ((splitOnChar ' ' (trimWs rank_raw)).headD []) with
  | none => .ok none
  | some (rank_name, rank_num) =>
    match abbrevList.findIdx? (fun t => t == rank_name) with
    | none => .error ()
    | some ind => .ok (some ((fullList.getD ind []) ++ ' ' :: rank_num))

/-- C7 counterexample: `'Mz4e'` has the letters-digits-letters shape with
the unmapped tier code `'Mz'`, and the parser raises (`list.index`
`ValueError`) instead of returning absent. -/
theorem extract_h2h_rank_claim_false :
    matchRankRe ("Mz4e".toList) = some ("Mz".toList, "4".toList) ∧
    ("Mz".toList) ∉ abbrevList ∧
    extract_h2h_rank ("Mz4e".toList) ≠ .ok none ∧
    extract_h2h_rank ("Mz4e".toList) = .error () := by
  refine ⟨by decide, by decide, by decide, by decide⟩

/-- C7 amended: whenever the leading token matches the
letters-digits-letters shape but its tier code is not one of the ten
known abbreviations, the parser raises the fatal lookup error (it never
returns a rank, and never returns absent). -/
theorem extract_h2h_rank_unmapped (rank_raw rank_name rank_num : List Char)
    (hm : matchRankRe ((splitOnChar ' ' (trimWs rank_raw)).headD []) =
      some (rank_name, rank_num))
    (habs : rank_name ∉ abbrevList) :
    extract_h2h_rank rank_raw = .error () := by
  have hfind : abbrevList.findIdx? (fun t => t == rank_name) = none := by
    rw [List.findIdx?_eq_none_iff]
    intro t ht
    by_contra hb
    rw [Bool.not_eq_false, beq_iff_eq] at hb
    exact habs (hb ▸ ht)
  unfold extract_h2h_rank
  rw [hm]
  dsimp only
  rw [hfind]

/-- C7 amended witness: the concrete unmapped-code token `'Mz4e'`. -/
theorem extract_h2h_rank_unmapped_witness :
    extract_h2h_rank ("Mz4e".toList) = .error () :=
  extract_h2h_rank_unmapped ("Mz4e".toList) ("Mz".toList) ("4".toList)
    (by decide) (by decide)

/-! ## Date-triplet parser (`data_extraction.extract_years`) -/

/-- Gregorian leap year. -/
def isLeapYear (y : ℕ) : Bool := y % 4 = 0 && (y % 100 ≠ 0 || y % 400 = 0)

/-- Length of a month, as validated by `datetime.strptime`. -/
def daysInMonth (y m : ℕ) : ℕ :=
  if m = 2 then (if isLeapYear y then 29 else 28)
  else if m = 4 || m = 6 || m = 9 || m = 11 then 30
  else 31

/-- `strptime` field `%Y`: one to four digits, year at least `MINYEAR`. -/
def parseYearField (l : List Char) : Option ℕ :=
  if l.length ≤ 4 then
    match parseNatChars l with
    | some y => if 1 ≤ y then some y else none
    | none => none
  else none

/-- `strptime` field `%m`: one or two digits in `1..12`. -/
def parseMonthField (l : List Char) : Option ℕ :=
  if l.length ≤ 2 then
    match parseNatChars l with
    | some m => if 1 ≤ m ∧ m ≤ 12 then some m else none
    | none => none
  else none

/-- `strptime` field `%B`: a full English month name. -/
def monthNames : List (List Char × ℕ) :=
  [("January".toList, 1), ("February".toList, 2), ("March".toList, 3),
    ("April".toList, 4), ("May".toList, 5), ("June".toList, 6),
    ("July".toList, 7), ("August".toList, 8), ("September".toList, 9),
    ("October".toList, 10), ("November".toList, 11), ("December".toList, 12)]

def parseMonthName (l : List Char) : Option ℕ :=
  (monthNames.find? (fun p => p.1 == l)).map (·.2)

/-- `datetime.strptime(s, '%B %d, %Y')`: month name, one/two-digit day
followed by a comma, year; the day is validated against the month. -/
def tryFmtMonthDayYear (l : List Char) : Option SumoDate :=
  match splitOnChar ' ' l with
  | [ms, ds, ys] =>
    match parseMonthName ms with
    | none => none
    | some m =>
      if ds.getLast? = some ',' then
        match ds.dropLast with
        | [] => none
        | core =>
          if core.length ≤ 2 then
            match parseNatChars core, parseYearField ys with
            | some d, some y =>
              if 1 ≤ d ∧ d ≤ daysInMonth y m then some ⟨y, m, d⟩ else none
            | _, _ => none
          else none
      else none
  | _ => none

/-- `datetime.strptime(s, '%B %Y')`. -/
def tryFmtMonthYear (l : List Char) : Option SumoDate :=
  match splitOnChar ' ' l with
  | [ms, ys] =>
    match parseMonthName ms, parseYearField ys with
    | some m, some y => some ⟨y, m, 1⟩
    | _, _ => none
  | _ => none

/-- `datetime.strptime(s, '%Y')`. -/
def tryFmtYearOnly (l : List Char) : Option SumoDate :=
  match splitOnChar ' ' l with
  | [ys] =>
    match parseYearField ys with
    | some y => some ⟨y, 1, 1⟩
    | none => none
  | _ => none

/-- `datetime.strptime(s, '%Y.%m')`. -/
def tryFmtYearDotMonth (l : List Char) : Option SumoDate :=
  match splitOnChar '.' l with
  | [ys, ms] =>
    match parseYearField ys, parseMonthField ms with
    | some y, some m => some ⟨y, m, 1⟩
    | _, _ => none
  | _ => none

/-- The birth-date loop of `extract_years`: strip the `' (X years)'`
suffix, then try the three formats in order, each successful parse
overwriting `bday` — and resetting it to `None` when the parsed year is
before 1700 (the 64-bit-nanosecond storage bound). -/
def parseBirth (birth_date : List Char) : Option SumoDate :=
  match tryFmtYearOnly (takeBeforeParen birth_date) with
  | some dt => if dt.year < 1700 then none else some dt
  | none =>
    match tryFmtMonthYear (takeBeforeParen birth_date) with
    | some dt => if dt.year < 1700 then none else some dt
    | none =>
      match tryFmtMonthDayYear (takeBeforeParen birth_date) with
      | some dt => if dt.year < 1700 then none else some dt
      | none => none

/-- The result of matching
`^([0-9.]+)(?:\s)?(?:\()?(\w+)?(?:\))?$|^(unknown)$` — the three groups
(date, parenthesized status word, literal `unknown`). -/
structure IntaiGroups where
  g1 : Option (List Char)
  g2 : Option (List Char)
  g3 : Option (List Char)

/-- Word character `\w` = `[A-Za-z0-9_]`. -/
def isWordChar (c : Char) : Bool := isAsciiLetter c || c.isDigit || c = '_'

/-- Greedy match of the debut/retirement regular expression (the leading
class `[0-9.]+` is disjoint from every later literal, and everything
after it is optional, so greedy matching is equivalent to the
backtracking semantics). -/
def matchIntaiRe (l : List Char) : Option IntaiGroups :=
  let g1 := l.takeWhile isDigitDotChar
  if g1 = [] then
    if l = "unknown".toList then some ⟨none, none, some ("unknown".toList)⟩
    else none
  else
    let rest0 := l.drop g1.length
    let rest1 :=
      match rest0 with
      | c :: t => if c.isWhitespace then t else c :: t
      | [] => []
    let rest2 :=
      match rest1 with
      | '(' :: t => t
      | r => r
    let g2 := rest2.takeWhile isWordChar
    let rest3 := rest2.drop g2.length
    let rest4 :=
      match rest3 with
      | ')' :: t => t
      | r => r
    if rest4 = [] then some ⟨some g1, if g2 = [] then none else some g2, none⟩
    else if l = "unknown".toList then some ⟨none, none, some ("unknown".toList)⟩
    else none

/-- The hatsu-dohyo branch of `extract_years`: returns the parsed debut
date and the entry rank (group 2), which is only assigned when the
`strptime` call inside the same `try` block succeeded. -/
def parseHatsu (hatsu_dohyo : List Char) : Option SumoDate × Option (List Char) :=
  match matchIntaiRe hatsu_dohyo with
  | none => (none, none)
  | some g =>
    if g.g3 ≠ some ("unknown".toList) then
      match g.g1 with
      | some ds =>
        match tryFmtYearDotMonth ds with
        | some dt => (some dt, g.g2)
        | none => (none, none)
      | none => (none, none)
    else (none, none)

/-- The retirement branch of `extract_years`: returns the parsed
retirement date and the `retirement_known` flag (set to `false` exactly
when group 3 is the literal `unknown`). -/
def parseIntai (intai : List Char) : Option SumoDate × Bool :=
  match matchIntaiRe intai with
  | none => (none, true)
  | some g =>
    if g.g3 = some ("unknown".toList) then (none, false)
    else
      match g.g1 with
      | some ds => (tryFmtYearDotMonth ds, true)
      | none => (none, true)

/-- The record returned by `extract_years`. -/
structure YearsResult where
  bday : Option SumoDate
  age : Option ℚ
  active_years : Option ℚ
  debut : Option SumoDate
  entry_rank : Option (List Char)
  retirement : Option SumoDate

/-- `data_extraction.extract_years`: parse the three raw fields, then
derive age and active years — against the retirement date when one was
parsed, otherwise against the current date `now`, the latter only when
the retirement status was not the literal `unknown`. -/
def extract_years (birth_date hatsu_dohyo intai : List Char) (now : SumoDate) :
    YearsResult :=
  match parseIntai intai with
  | (some ret, _) =>
    ⟨parseBirth birth_date,
      (parseBirth birth_date).map (fun b => yearsBetween ret b),
      ((parseHatsu hatsu_dohyo).1).map (fun d => yearsBetween ret d),
      (parseHatsu hatsu_dohyo).1, (parseHatsu hatsu_dohyo).2, some ret⟩
  | (none, known) =>
    ⟨parseBirth birth_date,
      if known then (parseBirth birth_date).map (fun b => yearsBetween now b)
      else none,
      if known then ((parseHatsu hatsu_dohyo).1).map (fun d => yearsBetween now d)
      else none,
      (parseHatsu hatsu_dohyo).1, (parseHatsu hatsu_dohyo).2, none⟩

/-- C5: an explicit `unknown` retirement suppresses age and active-years
entirely (whatever birth and debut parsed to), while a retirement field
that merely fails to parse (no retirement date, flag still known) lets
age and active-years be computed against the current date from the
parsed birth and debut dates. -/
theorem extract_years_unknown_asym (birth_date hatsu_dohyo intai : List Char)
    (now : SumoDate) :
    (intai = "unknown".toList →
      (extract_years birth_date hatsu_dohyo intai now).age = none ∧
      (extract_years birth_date hatsu_dohyo intai now).active_years = none) ∧
    ((parseIntai intai).1 = none → (parseIntai intai).2 = true →
      (extract_years birth_date hatsu_dohyo intai now).age =
        (parseBirth birth_date).map (fun b => yearsBetween now b) ∧
      (extract_years birth_date hatsu_dohyo intai now).active_years =
        ((parseHatsu hatsu_dohyo).1).map (fun d => yearsBetween now d)) := by
  constructor
  · intro h
    subst h
    have hu : parseIntai ("unknown".toList) = (none, false) := by decide
    unfold extract_years
    rw [hu]
    exact ⟨rfl, rfl⟩
  · intro h1 h2
    have hp : parseIntai intai = (none, true) := by
      cases hpe : parseIntai intai with
      | mk a b =>
        rw [hpe] at h1 h2
        simp only at h1 h2
        rw [h1, h2]
    unfold extract_years
    rw [hp]
    exact ⟨rfl, rfl⟩

/-- C5 witness: `'unknown'` suppresses the ages even though birth and
debut parse, while the unparseable `'garbage'` retirement lets both be
computed at the current date. -/
theorem extract_years_unknown_asym_witness :
    ((extract_years ("January 27, 1980".toList) ("2001.03".toList)
        ("unknown".toList) ⟨2026, 10, 12⟩).age = none ∧
      (extract_years ("January 27, 1980".toList) ("2001.03".toList)
        ("unknown".toList) ⟨2026, 10, 12⟩).active_years = none) ∧
    ((extract_years ("January 27, 1980".toList) ("2001.03".toList)
        ("garbage".toList) ⟨2026, 10, 12⟩).age =
      (parseBirth ("January 27, 1980".toList)).map
        (fun b => yearsBetween ⟨2026, 10, 12⟩ b) ∧
      (extract_years ("January 27, 1980".toList) ("2001.03".toList)
        ("garbage".toList) ⟨2026, 10, 12⟩).active_years =
      ((parseHatsu ("2001.03".toList)).1).map
        (fun d => yearsBetween ⟨2026, 10, 12⟩ d)) :=
  ⟨(extract_years_unknown_asym ("January 27, 1980".toList) ("2001.03".toList)
      ("unknown".toList) ⟨2026, 10, 12⟩).1 rfl,
    (extract_years_unknown_asym ("January 27, 1980".toList) ("2001.03".toList)
      ("garbage".toList) ⟨2026, 10, 12⟩).2 (by decide) (by decide)⟩

/-- C6 counterexample: the pre-1700 rejection is only applied to the
birth date; a debut (or retirement) field `'1650.03'` parses and is
returned with year 1650 < 1700. -/
theorem extract_years_pre1700_claim_false :
    (extract_years ("1800".toList) ("1650.03".toList) ("1650.04".toList)
        ⟨2026, 10, 12⟩).debut = some ⟨1650, 3, 1⟩ ∧
    (extract_years ("1800".toList) ("1650.03".toList) ("1650.04".toList)
        ⟨2026, 10, 12⟩).retirement = some ⟨1650, 4, 1⟩ ∧
    (1650 : ℕ) < 1700 := by
  refine ⟨by decide, by decide, by decide⟩

/-- C6 amended: the parser never returns a BIRTH date with year earlier
than 1700 (debut and retirement are returned as parsed). -/
theorem extract_years_bday_ge_1700 (birth_date hatsu_dohyo intai : List Char)
    (now : SumoDate) (d : SumoDate)
    (h : (extract_years birth_date hatsu_dohyo intai now).bday = some d) :
    1700 ≤ d.year := by
  have hb : parseBirth birth_date = some d := by
    unfold extract_years at h
    cases hpe : parseIntai intai with
    | mk a b =>
      rw [hpe] at h
      cases a <;> simpa using h
  unfold parseBirth at hb
  rcases h3 : tryFmtYearOnly (takeBeforeParen birth_date) with _ | dt3 <;>
    rw [h3] at hb
  · rcases h2 : tryFmtMonthYear (takeBeforeParen birth_date) with _ | dt2 <;>
      rw [h2] at hb
    · rcases h1 : tryFmtMonthDayYear (takeBeforeParen birth_date) with _ | dt1 <;>
        rw [h1] at hb
      · simp at hb
      · dsimp only at hb
        split_ifs at hb with hy
        injection hb with h4
        subst h4
        omega
    · dsimp only at hb
      split_ifs at hb with hy
      injection hb with h4
      subst h4
      omega
  · dsimp only at hb
    split_ifs at hb with hy
    injection hb with h4
    subst h4
    omega

/-- C6 amended witness: a concrete parsed birth date. -/
theorem extract_years_bday_ge_1700_witness :
    1700 ≤ (SumoDate.mk 1980 1 27).year :=
  extract_years_bday_ge_1700 ("January 27, 1980".toList) ("2001.03".toList)
    ("unknown".toList) ⟨2026, 10, 12⟩ ⟨1980, 1, 27⟩ (by decide)

/-! ## Rank ordinal mapper (`ml_fxns.map_rank`) -/

/-- The six numbered tiers paired with their offsets, in the loop order
of the source (`title_list` / `offset_list`). -/
def titleOffsetList : List (List Char × ℕ) :=
  [("Maegashira".toList, 4), ("Juryo".toList, 21), ("Makushita".toList, 35),
    ("Sandanme".toList, 95), ("Jonidan".toList, 195), ("Jonokuchi".toList, 320)]

/-- `ml_fxns.map_rank`.  The source first runs four sequential `if`s for
the named tiers (later assignments overwriting earlier ones, hence the
reversed chain here) and then a loop over the numbered tiers whose first
match overwrites `num_rank` with `int(rank.split(' ')[1]) + offset`;
every Python exception (failed `int`, missing field, no tier matched) is
`none`. -/
def map_rank (current_rank : List Char) : Option ℕ :=
  match titleOffsetList.find? (fun p => subIn p.1 current_rank) with
  | some p =>
    match (splitOnChar ' ' current_rank)[1]? with
    | some field => (parseNatChars field).map (fun n => n + p.2)
    | none => none
  | none =>
    if subIn ("Komusubi".toList) current_rank then some 4
    else if subIn ("Sekiwake".toList) current_rank then some 3
    else if subIn ("Ozeki".toList) current_rank then some 2
    else if subIn ("Yokozuna".toList) current_rank then some 1
    else none

theorem not_mem_numbered {c : Char} {t ds : List Char} (h1 : c ∉ t)
    (h2 : c ≠ ' ') (hds : ∀ x ∈ ds, x.isDigit = true) (hc : c.isDigit = false) :
    c ∉ t ++ ' ' :: ds := by
  intro hm
  rcases List.mem_append.mp hm with hm | hm
  · exact h1 hm
  · rcases List.mem_cons.mp hm with hm | hm
    · exact h2 hm
    · rw [hds c hm] at hc; cases hc

theorem map_rank_numbered (t : List Char) (off : ℕ) (ds : List Char) (N : ℕ)
    (hfind : titleOffsetList.find? (fun p => subIn p.1 (t ++ ' ' :: ds)) =
      some (t, off))
    (hsp : ' ' ∉ t) (hds : parseNatChars ds = some N) :
    map_rank (t ++ ' ' :: ds) = some (N + off) := by
  have hsd : (' ' : Char) ∉ ds := by
    intro hm
    have := parseNatChars_digits hds ' ' hm
    simp at this
  unfold map_rank
  rw [hfind, splitOnChar_append hsp hsd]
  simp [hds]

theorem map_rank_maegashira (ds : List Char) (N : ℕ)
    (hds : parseNatChars ds = some N) :
    map_rank ("Maegashira".toList ++ ' ' :: ds) = some (N + 4) := by
  apply map_rank_numbered _ _ _ _ _ (by decide) hds
  exact List.find?_cons_of_pos _ (subIn_append_self _ _)

theorem map_rank_juryo (ds : List Char) (N : ℕ)
    (hds : parseNatChars ds = some N) :
    map_rank ("Juryo".toList ++ ' ' :: ds) = some (N + 21) := by
  have hd := parseNatChars_digits hds
  apply map_rank_numbered _ _ _ _ _ (by decide) hds
  have h0 : subIn ("Maegashira".toList) ("Juryo".toList ++ ' ' :: ds) = false :=
    subIn_eq_false 'M' (by decide)
      (not_mem_numbered (by decide) (by decide) hd (by decide))
  unfold titleOffsetList
  rw [List.find?_cons_of_neg _ (by rw [h0]; simp)]
  exact List.find?_cons_of_pos _ (subIn_append_self _ _)

theorem map_rank_makushita (ds : List Char) (N : ℕ)
    (hds : parseNatChars ds = some N) :
    map_rank ("Makushita".toList ++ ' ' :: ds) = some (N + 35) := by
  have hd := parseNatChars_digits hds
  apply map_rank_numbered _ _ _ _ _ (by decide) hds
  have h0 : subIn ("Maegashira".toList) ("Makushita".toList ++ ' ' :: ds) = false :=
    subIn_eq_false 'e' (by decide)
      (not_mem_numbered (by decide) (by decide) hd (by decide))
  have h1 : subIn ("Juryo".toList) ("Makushita".toList ++ ' ' :: ds) = false :=
    subIn_eq_false 'J' (by decide)
      (not_mem_numbered (by decide) (by decide) hd (by decide))
  unfold titleOffsetList
  rw [List.find?_cons_of_neg _ (by rw [h0]; simp),
    List.find?_cons_of_neg _ (by rw [h1]; simp)]
  exact List.find?_cons_of_pos _ (subIn_append_self _ _)

theorem map_rank_sandanme (ds : List Char) (N : ℕ)
    (hds : parseNatChars ds = some N) :
    map_rank ("Sandanme".toList ++ ' ' :: ds) = some (N + 95) := by
  have hd := parseNatChars_digits hds
  apply map_rank_numbered _ _ _ _ _ (by decide) hds
  have h0 : subIn ("Maegashira".toList) ("Sandanme".toList ++ ' ' :: ds) = false :=
    subIn_eq_false 'g' (by decide)
      (not_mem_numbered (by decide) (by decide) hd (by decide))
  have h1 : subIn ("Juryo".toList) ("Sandanme".toList ++ ' ' :: ds) = false :=
    subIn_eq_false 'J' (by decide)
      (not_mem_numbered (by decide) (by decide) hd (by decide))
  have h2 : subIn ("Makushita".toList) ("Sandanme".toList ++ ' ' :: ds) = false :=
    subIn_eq_false 'M' (by decide)
      (not_mem_numbered (by decide) (by decide) hd (by decide))
  unfold titleOffsetList
  rw [List.find?_cons_of_neg _ (by rw [h0]; simp),
    List.find?_cons_of_neg _ (by rw [h1]; simp),
    List.find?_cons_of_neg _ (by rw [h2]; simp)]
  exact List.find?_cons_of_pos _ (subIn_append_self _ _)

theorem map_rank_jonidan (ds : List Char) (N : ℕ)
    (hds : parseNatChars ds = some N) :
    map_rank ("Jonidan".toList ++ ' ' :: ds) = some (N + 195) := by
  have hd := parseNatChars_digits hds
  apply map_rank_numbered _ _ _ _ _ (by decide) hds
  have h0 : subIn ("Maegashira".toList) ("Jonidan".toList ++ ' ' :: ds) = false :=
    subIn_eq_false 'M' (by decide)
      (not_mem_numbered (by decide) (by decide) hd (by decide))
  have h1 : subIn ("Juryo".toList) ("Jonidan".toList ++ ' ' :: ds) = false :=
    subIn_eq_false 'u' (by decide)
      (not_mem_numbered (by decide) (by decide) hd (by decide))
  have h2 : subIn ("Makushita".toList) ("Jonidan".toList ++ ' ' :: ds) = false :=
    subIn_eq_false 'M' (by decide)
      (not_mem_numbered (by decide) (by decide) hd (by decide))
  have h3 : subIn ("Sandanme".toList) ("Jonidan".toList ++ ' ' :: ds) = false :=
    subIn_eq_false 'S' (by decide)
      (not_mem_numbered (by decide) (by decide) hd (by decide))
  unfold titleOffsetList
  rw [List.find?_cons_of_neg _ (by rw [h0]; simp),
    List.find?_cons_of_neg _ (by rw [h1]; simp),
    List.find?_cons_of_neg _ (by rw [h2]; simp),
    List.find?_cons_of_neg _ (by rw [h3]; simp)]
  exact List.find?_cons_of_pos _ (subIn_append_self _ _)

theorem map_rank_jonokuchi (ds : List Char) (N : ℕ)
    (hds : parseNatChars ds = some N) :
    map_rank ("Jonokuchi".toList ++ ' ' :: ds) = some (N + 320) := by
  have hd := parseNatChars_digits hds
  apply map_rank_numbered _ _ _ _ _ (by decide) hds
  have h0 : subIn ("Maegashira".toList) ("Jonokuchi".toList ++ ' ' :: ds) = false :=
    subIn_eq_false 'M' (by decide)
      (not_mem_numbered (by decide) (by decide) hd (by decide))
  have h1 : subIn ("Juryo".toList) ("Jonokuchi".toList ++ ' ' :: ds) = false :=
    subIn_eq_false 'r' (by decide)
      (not_mem_numbered (by decide) (by decide) hd (by decide))
  have h2 : subIn ("Makushita".toList) ("Jonokuchi".toList ++ ' ' :: ds) = false :=
    subIn_eq_false 'M' (by decide)
      (not_mem_numbered (by decide) (by decide) hd (by decide))
  have h3 : subIn ("Sandanme".toList) ("Jonokuchi".toList ++ ' ' :: ds) = false :=
    subIn_eq_false 'S' (by decide)
      (not_mem_numbered (by decide) (by decide) hd (by decide))
  have h4 : subIn ("Jonidan".toList) ("Jonokuchi".toList ++ ' ' :: ds) = false :=
    subIn_eq_false 'd' (by decide)
      (not_mem_numbered (by decide) (by decide) hd (by decide))
  unfold titleOffsetList
  rw [List.find?_cons_of_neg _ (by rw [h0]; simp),
    List.find?_cons_of_neg _ (by rw [h1]; simp),
    List.find?_cons_of_neg _ (by rw [h2]; simp),
    List.find?_cons_of_neg _ (by rw [h3]; simp),
    List.find?_cons_of_neg _ (by rw [h4]; simp)]
  exact List.find?_cons_of_pos _ (subIn_append_self _ _)

/-- `a` and `b` are both successful ordinals with `a < b`. -/
def optLt (a b : Option ℕ) : Prop := ∃ x y, a = some x ∧ b = some y ∧ x < y

/-- Numbered-tier titles indexed `0..5` from highest to lowest. -/
def tierTitle : Fin 6 → List Char := fun i =>
  ["Maegashira".toList, "Juryo".toList, "Makushita".toList,
    "Sandanme".toList, "Jonidan".toList, "Jonokuchi".toList].getD i.val []

/-- The tier offsets `(4, 21, 35, 95, 195, 320)`. -/
def tierOffset : Fin 6 → ℕ := fun i => [4, 21, 35, 95, 195, 320].getD i.val 0

/-- Nominal maximum numbered rank of each tier (Maegashira up to 17,
Juryo 14, Makushita 60, Sandanme 100, Jonidan 125, Jonokuchi 45, per the
roster sizes quoted in the source). -/
def tierNominalMax : Fin 6 → ℕ := fun i =>
  [17, 14, 60, 100, 125, 45].getD i.val 0

theorem map_rank_at (i : Fin 6) (ds : List Char) (N : ℕ)
    (hds : parseNatChars ds = some N) :
    map_rank (tierTitle i ++ ' ' :: ds) = some (N + tierOffset i) := by
  fin_cases i
  · exact map_rank_maegashira ds N hds
  · exact map_rank_juryo ds N hds
  · exact map_rank_makushita ds N hds
  · exact map_rank_sandanme ds N hds
  · exact map_rank_jonidan ds N hds
  · exact map_rank_jonokuchi ds N hds

theorem tier_offset_arith (i j : Fin 6) (hij : i < j) (N : ℕ)
    (hN : N ≤ tierNominalMax i) : N + tierOffset i < 1 + tierOffset j := by
  fin_cases i <;> fin_cases j <;>
    simp_all [tierOffset, tierNominalMax, List.getD] <;> omega

/-- C4: the four named tiers map to the constants 1-4; each numbered
label `<TierName> N` (the number given as a digit string) maps to
`N + tierOffset`; the ordinal is strictly increasing in `N` within a
tier; rank 1 of each lower tier exceeds every in-nominal-range rank of
each higher tier, the four named tiers included. -/
theorem map_rank_spec (ds es : List Char) (N M : ℕ)
    (hds : parseNatChars ds = some N) (hes : parseNatChars es = some M) :
    (map_rank ("Yokozuna".toList) = some 1 ∧
      map_rank ("Ozeki".toList) = some 2 ∧
      map_rank ("Sekiwake".toList) = some 3 ∧
      map_rank ("Komusubi".toList) = some 4) ∧
    (∀ i : Fin 6, map_rank (tierTitle i ++ ' ' :: ds) =
      some (N + tierOffset i)) ∧
    (N < M → ∀ i : Fin 6,
      optLt (map_rank (tierTitle i ++ ' ' :: ds))
        (map_rank (tierTitle i ++ ' ' :: es))) ∧
    (∀ i j : Fin 6, i < j → N ≤ tierNominalMax i →
      optLt (map_rank (tierTitle i ++ ' ' :: ds))
        (map_rank (tierTitle j ++ ' ' :: ("1".toList)))) ∧
    (∀ r ∈ [("Yokozuna".toList : List Char), "Ozeki".toList,
        "Sekiwake".toList, "Komusubi".toList],
      optLt (map_rank r) (map_rank ("Maegashira".toList ++ ' ' :: ("1".toList)))) := by
  have h1 : parseNatChars ("1".toList) = some 1 := by decide
  refine ⟨⟨by decide, by decide, by decide, by decide⟩, ?_, ?_, ?_, ?_⟩
  · intro i; exact map_rank_at i ds N hds
  · intro hNM i
    exact ⟨N + tierOffset i, M + tierOffset i, map_rank_at i ds N hds,
      map_rank_at i es M hes, by omega⟩
  · intro i j hij hN
    exact ⟨N + tierOffset i, 1 + tierOffset j, map_rank_at i ds N hds,
      map_rank_at j ("1".toList) 1 h1, tier_offset_arith i j hij N hN⟩
  · intro r hr
    have hm : map_rank ("Maegashira".toList ++ ' ' :: ("1".toList)) = some 5 :=
      map_rank_maegashira ("1".toList) 1 h1
    fin_cases hr
    · exact ⟨1, 5, by decide, hm, by omega⟩
    · exact ⟨2, 5, by decide, hm, by omega⟩
    · exact ⟨3, 5, by decide, hm, by omega⟩
    · exact ⟨4, 5, by decide, hm, by omega⟩

/-- C4 witness: `Maegashira 5` maps to 9 and sits below `Juryo 1`. -/
theorem map_rank_spec_witness :
    map_rank ("Maegashira".toList ++ ' ' :: ("5".toList)) =
      some (5 + tierOffset 0) ∧
    optLt (map_rank (tierTitle 0 ++ ' ' :: ("5".toList)))
      (map_rank (tierTitle 1 ++ ' ' :: ("1".toList))) := by
  have h := map_rank_spec ("5".toList) ("7".toList) 5 7 (by decide) (by decide)
  exact ⟨h.2.1 0, h.2.2.2.1 0 1 (by decide) (by decide)⟩

/-! ## Temporal discount engine (`ml_fxns.discount_weight`) -/

/-- Minimum of a list (0 for the empty list, never used there). -/
def listMin : List ℚ → ℚ
  | [] => 0
  | a :: t => t.foldr min a

theorem listMin_le {l : List ℚ} : ∀ x ∈ l, listMin l ≤ x := by
  cases l with
  | nil => intro x hx; cases hx
  | cons a t =>
    show ∀ x ∈ a :: t, t.foldr min a ≤ x
    induction t generalizing a with
    | nil =>
      intro x hx
      rcases List.mem_cons.mp hx with rfl | hx
      · exact le_refl x
      · cases hx
    | cons b t' ih =>
      intro x hx
      have hfold : (b :: t').foldr min a = min b (t'.foldr min a) := rfl
      rcases List.mem_cons.mp hx with rfl | hx
      · have := ih x x (List.mem_cons_self _ _)
        rw [hfold]
        exact le_trans (min_le_right _ _) this
      · rcases List.mem_cons.mp hx with rfl | hx
        · rw [hfold]; exact min_le_left _ _
        · have := ih a x (List.mem_cons_of_mem _ hx)
          rw [hfold]
          exact le_trans (min_le_right _ _) this

theorem listMin_mem {l : List ℚ} (h : l ≠ []) : listMin l ∈ l := by
  cases l with
  | nil => cases h rfl
  | cons a t =>
    show t.foldr min a ∈ a :: t
    induction t generalizing a with
    | nil => exact List.mem_cons_self _ _
    | cons b t' ih =>
      have hfold : (b :: t').foldr min a = min b (t'.foldr min a) := rfl
      rw [hfold]
      rcases min_cases b (t'.foldr min a) with ⟨he, _⟩ | ⟨he, _⟩
      · rw [he]
        exact List.mem_cons_of_mem _ (List.mem_cons_self _ _)
      · rw [he]
        rcases List.mem_cons.mp (ih a (by simp)) with hm | hm
        · rw [hm]; exact List.mem_cons_self _ _
        · exact List.mem_cons_of_mem _ (List.mem_cons_of_mem _ hm)

/-- Index of the first occurrence of a value. -/
def idxOf (x : ℚ) : List ℚ → ℕ
  | [] => 0
  | a :: t => if a = x then 0 else idxOf x t + 1

theorem idxOf_lt {x : ℚ} {l : List ℚ} (h : x ∈ l) : idxOf x l < l.length := by
  induction l with
  | nil => cases h
  | cons a t ih =>
    by_cases ha : a = x
    · simp [idxOf, ha]
    · rcases List.mem_cons.mp h with rfl | hm
      · exact absurd rfl ha
      · simp only [idxOf, if_neg ha, List.length_cons]
        exact Nat.succ_lt_succ (ih hm)

theorem get_idxOf {x : ℚ} {l : List ℚ} (h : x ∈ l) :
    l.get ⟨idxOf x l, idxOf_lt h⟩ = x := by
  induction l with
  | nil => cases h
  | cons a t ih =>
    by_cases ha : a = x
    · simp [idxOf, ha]
    · rcases List.mem_cons.mp h with rfl | hm
      · exact absurd rfl ha
      · simp only [idxOf, if_neg ha]
        exact ih hm

theorem get_of_lt_idxOf {x : ℚ} {l : List ℚ} {j : ℕ} (hj : j < l.length)
    (hlt : j < idxOf x l) : l.get ⟨j, hj⟩ ≠ x := by
  induction l generalizing j with
  | nil => cases hj
  | cons a t ih =>
    by_cases ha : a = x
    · simp [idxOf, ha] at hlt
    · cases j with
      | zero => simpa using ha
      | succ j' =>
        simp only [idxOf, if_neg ha] at hlt
        exact ih (Nat.lt_of_succ_lt_succ hj) (Nat.lt_of_succ_lt_succ hlt)

/-- `np.argmin`: index of the first occurrence of the minimum. -/
def argminIdx (l : List ℚ) : ℕ := idxOf (listMin l) l

/-- The 100-point uniform lookup grid `np.linspace(0, 10, 100)`. -/
def gridPoint (i : ℕ) : ℚ := 10 * i / 99

/-- `np.abs(time - years_since)` over the grid. -/
def distList (y : ℚ) : List ℚ := (List.range 100).map (fun i => |gridPoint i - y|)

/-- The nearest-grid-point index chosen by the source. -/
def nearestIdx (y : ℚ) : ℕ := argminIdx (distList y)

theorem distList_length (y : ℚ) : (distList y).length = 100 := by
  simp [distList]

theorem distList_ne_nil (y : ℚ) : distList y ≠ [] := by
  intro h
  have := distList_length y
  rw [h] at this
  cases this

theorem distList_get (y : ℚ) (j : ℕ) (h : j < (distList y).length) :
    (distList y).get ⟨j, h⟩ = |gridPoint j - y| := by
  simp [distList]

theorem nearestIdx_lt (y : ℚ) : nearestIdx y < 100 := by
  have h := idxOf_lt (listMin_mem (distList_ne_nil y))
  rw [distList_length] at h
  exact h

theorem nearestIdx_min (y : ℚ) (j : ℕ) (hj : j < 100) :
    |gridPoint (nearestIdx y) - y| ≤ |gridPoint j - y| := by
  have hj' : j < (distList y).length := by rw [distList_length]; exact hj
  have hi' : nearestIdx y < (distList y).length :=
    idxOf_lt (listMin_mem (distList_ne_nil y))
  have h1 : (distList y).get ⟨nearestIdx y, hi'⟩ = listMin (distList y) :=
    get_idxOf (listMin_mem (distList_ne_nil y))
  have h2 := listMin_le ((distList y).get ⟨j, hj'⟩) (List.get_mem _ _ _)
  rw [distList_get] at h1 h2
  rw [h1]
  exact h2

theorem nearestIdx_first (y : ℚ) (j : ℕ) (hj : j < nearestIdx y) :
    |gridPoint (nearestIdx y) - y| < |gridPoint j - y| := by
  have hi' : nearestIdx y < (distList y).length :=
    idxOf_lt (listMin_mem (distList_ne_nil y))
  have hj' : j < (distList y).length := lt_trans hj hi'
  have hne : (distList y).get ⟨j, hj'⟩ ≠ listMin (distList y) :=
    get_of_lt_idxOf hj' hj
  have h1 : (distList y).get ⟨nearestIdx y, hi'⟩ = listMin (distList y) :=
    get_idxOf (listMin_mem (distList_ne_nil y))
  have h2 := listMin_le ((distList y).get ⟨j, hj'⟩) (List.get_mem _ _ _)
  rw [distList_get] at h1 hne h2
  rw [h1]
  exact lt_of_le_of_ne h2 (Ne.symm hne)

theorem gridPoint_lt {i j : ℕ} (h : i < j) : gridPoint i < gridPoint j := by
  unfold gridPoint
  have hij : (i : ℚ) < j := by exact_mod_cast h
  rw [div_lt_div_iff₀ (by norm_num) (by norm_num)]
  nlinarith

theorem gridPoint_le {i j : ℕ} (h : i ≤ j) : gridPoint i ≤ gridPoint j := by
  rcases Nat.lt_or_ge i j with hlt | hge
  · exact (gridPoint_lt hlt).le
  · have : i = j := le_antisymm h hge
    rw [this]

/-- Nearest-neighbour lookup on a sorted grid, with first-index
tie-breaking, is monotone in the query point. -/
theorem nearestIdx_mono {y1 y2 : ℚ} (h : y1 ≤ y2) :
    nearestIdx y1 ≤ nearestIdx y2 := by
  by_contra hcon
  push_neg at hcon
  have hi1 : nearestIdx y1 < 100 := nearestIdx_lt y1
  have hg : gridPoint (nearestIdx y2) < gridPoint (nearestIdx y1) :=
    gridPoint_lt hcon
  have hstrict : |gridPoint (nearestIdx y1) - y1| <
      |gridPoint (nearestIdx y2) - y1| := nearestIdx_first y1 _ hcon
  have hmin2 : |gridPoint (nearestIdx y2) - y2| ≤
      |gridPoint (nearestIdx y1) - y2| := nearestIdx_min y2 _ hi1
  set g1 := gridPoint (nearestIdx y1) with hg1
  set g2 := gridPoint (nearestIdx y2) with hg2
  have key1 : g2 + g1 < 2 * y1 := by
    rcases abs_cases (g1 - y1) with ⟨e1, f1⟩ | ⟨e1, f1⟩ <;>
      rcases abs_cases (g2 - y1) with ⟨e2, f2⟩ | ⟨e2, f2⟩ <;>
      rw [e1, e2] at hstrict <;> linarith
  have key2 : |g1 - y2| < |g2 - y2| := by
    rcases abs_cases (g1 - y2) with ⟨e1, f1⟩ | ⟨e1, f1⟩ <;>
      rcases abs_cases (g2 - y2) with ⟨e2, f2⟩ | ⟨e2, f2⟩ <;>
      rw [e1, e2] <;> linarith
  linarith

/-- For queries at or beyond the grid's right edge (10 years), the
nearest grid point is the boundary index 99. -/
theorem nearestIdx_boundary {y : ℚ} (hy : 10 ≤ y) : nearestIdx y = 99 := by
  have h99 : gridPoint 99 = 10 := by norm_num [gridPoint]
  by_contra hne
  have hlt : nearestIdx y < 100 := nearestIdx_lt y
  have hj : nearestIdx y < 99 := by omega
  have hgi : gridPoint (nearestIdx y) < 10 := by
    have := gridPoint_lt hj
    rwa [h99] at this
  have hmin := nearestIdx_min y 99 (by norm_num)
  have habs1 : |gridPoint 99 - y| = y - 10 := by
    rw [h99, abs_of_nonpos (by linarith)]
    ring
  have habs2 : |gridPoint (nearestIdx y) - y| = y - gridPoint (nearestIdx y) := by
    rw [abs_of_nonpos (by linarith)]
    ring
  rw [habs1, habs2] at hmin
  linarith

/-- `exp_curve` of the source: `discount_factor ** time[i]` (a real
power, hence the model is noncomputable). -/
noncomputable def expCurve (d : ℝ) (i : ℕ) : ℝ := d ^ ((gridPoint i : ℚ) : ℝ)

/-- `ml_fxns.discount_weight`: weight `d` unchanged within one year,
otherwise the nearest-grid-point value of `min(d ** t, d)`. -/
noncomputable def discount_weight (current_date previous_date : SumoDate)
    (discount_factor : ℝ) : ℝ :=
  if yearsBetween current_date previous_date ≤ 1 then discount_factor
  else
    min (expCurve discount_factor
        (nearestIdx (yearsBetween current_date previous_date)))
      discount_factor

theorem discount_weight_pos (c p : SumoDate) {d : ℝ} (hd : 0 < d) :
    0 < discount_weight c p d := by
  unfold discount_weight
  split_ifs
  · exact hd
  · exact lt_min (Real.rpow_pos_of_pos hd _) hd

/-- C2: for a decay base `0 < d < 1`, events within one year keep weight
exactly `d`; older events get a weight in `(0, d]` that is non-increasing
in the elapsed time; events at or beyond ten years are all handled via
the boundary grid point. -/
theorem discount_weight_spec (d : ℝ) (hd0 : 0 < d) (hd1 : d < 1)
    (c p1 p2 : SumoDate) :
    (yearsBetween c p1 ≤ 1 → discount_weight c p1 d = d) ∧
    (1 < yearsBetween c p1 →
      0 < discount_weight c p1 d ∧ discount_weight c p1 d ≤ d) ∧
    (1 < yearsBetween c p1 → yearsBetween c p1 ≤ yearsBetween c p2 →
      discount_weight c p2 d ≤ discount_weight c p1 d) ∧
    (10 ≤ yearsBetween c p1 →
      discount_weight c p1 d = min (expCurve d 99) d) := by
  refine ⟨fun h1 => ?_, fun h1 => ?_, fun h1 h12 => ?_, fun h10 => ?_⟩
  · unfold discount_weight
    rw [if_pos h1]
  · unfold discount_weight
    rw [if_neg (not_le.mpr h1)]
    exact ⟨lt_min (Real.rpow_pos_of_pos hd0 _) hd0, min_le_right _ _⟩
  · have h2 : 1 < yearsBetween c p2 := lt_of_lt_of_le h1 h12
    unfold discount_weight
    rw [if_neg (not_le.mpr h1), if_neg (not_le.mpr h2)]
    have hidx : nearestIdx (yearsBetween c p1) ≤ nearestIdx (yearsBetween c p2) :=
      nearestIdx_mono h12
    have hgp : ((gridPoint (nearestIdx (yearsBetween c p1)) : ℚ) : ℝ) ≤
        ((gridPoint (nearestIdx (yearsBetween c p2)) : ℚ) : ℝ) := by
      exact_mod_cast gridPoint_le hidx
    have hcurve : expCurve d (nearestIdx (yearsBetween c p2)) ≤
        expCurve d (nearestIdx (yearsBetween c p1)) :=
      Real.rpow_le_rpow_of_exponent_ge hd0 hd1.le hgp
    exact min_le_min hcurve (le_refl d)
  · unfold discount_weight
    rw [if_neg (not_le.mpr (by linarith)), nearestIdx_boundary h10]

/-- C2 witness: base 1/2, reference date 2020-01-01, events three and
five years earlier. -/
theorem discount_weight_spec_witness :
    (0 < discount_weight ⟨2020, 1, 1⟩ ⟨2017, 1, 1⟩ ((1 : ℝ) / 2) ∧
      discount_weight ⟨2020, 1, 1⟩ ⟨2017, 1, 1⟩ ((1 : ℝ) / 2) ≤ (1 : ℝ) / 2) ∧
    discount_weight ⟨2020, 1, 1⟩ ⟨2015, 1, 1⟩ ((1 : ℝ) / 2) ≤
      discount_weight ⟨2020, 1, 1⟩ ⟨2017, 1, 1⟩ ((1 : ℝ) / 2) := by
  have hy1 : 1 < yearsBetween ⟨2020, 1, 1⟩ ⟨2017, 1, 1⟩ := by
    have h : tdeltaDays ⟨2020, 1, 1⟩ ⟨2017, 1, 1⟩ = 1095 := by decide
    unfold yearsBetween
    rw [h]
    norm_num
  have hy2 : yearsBetween ⟨2020, 1, 1⟩ ⟨2017, 1, 1⟩ ≤
      yearsBetween ⟨2020, 1, 1⟩ ⟨2015, 1, 1⟩ := by
    have ha : tdeltaDays ⟨2020, 1, 1⟩ ⟨2017, 1, 1⟩ = 1095 := by decide
    have hb : tdeltaDays ⟨2020, 1, 1⟩ ⟨2015, 1, 1⟩ = 1826 := by decide
    unfold yearsBetween
    rw [ha, hb]
    norm_num
  have h := discount_weight_spec ((1 : ℝ) / 2) (by norm_num) (by norm_num)
    ⟨2020, 1, 1⟩ ⟨2017, 1, 1⟩ ⟨2015, 1, 1⟩
  exact ⟨h.2.1 hy1, h.2.2.1 hy1 hy2⟩

/-! ## Head-to-head win-rate aggregation (`ml_fxns.calculate_h2h_wp`) -/

/-- One stored head-to-head match row (columns read by the function). -/
structure H2HRow where
  date : SumoDate
  id1 : ℤ
  id2 : ℤ
  outcome1 : List Char
  outcome2 : List Char

/-- Per-row contribution to the two weighted numerators: the loop
appends `(weight, 0)` for a win of the subject, `(0, weight)` for a win
of the opponent (in either storage orientation), and nothing at all for
any other outcome pair or identifier mismatch. -/
noncomputable def h2hContrib (current_date : SumoDate) (ID1 : ℤ) (r : H2HRow) :
    Option (ℝ × ℝ) :=
  if r.id1 = ID1 then
    if r.outcome1 = "shiro".toList ∧ r.outcome2 = "kuro".toList then
      some (discount_weight current_date r.date 0.8, 0)
    else if r.outcome1 = "kuro".toList ∧ r.outcome2 = "shiro".toList then
      some (0, discount_weight current_date r.date 0.8)
    else none
  else if r.id2 = ID1 then
    if r.outcome1 = "shiro".toList ∧ r.outcome2 = "kuro".toList then
      some (0, discount_weight current_date r.date 0.8)
    else if r.outcome1 = "kuro".toList ∧ r.outcome2 = "shiro".toList then
      some (discount_weight current_date r.date 0.8, 0)
    else none
  else none

/-- `ml_fxns.calculate_h2h_wp`: 50/50 on empty history, otherwise the
two weighted numerators each divided by the sum of all row weights
(every row contributes its weight to the denominator, matched or not,
exactly as `weight_list` does in the source). -/
noncomputable def calculate_h2h_wp (current_date : SumoDate)
    (rel : List H2HRow) (ID1 : ℤ) : ℝ × ℝ :=
  if rel.isEmpty then (0.5, 0.5)
  else
    (((rel.filterMap (h2hContrib current_date ID1)).map Prod.fst).sum /
        (rel.map (fun r => discount_weight current_date r.date 0.8)).sum,
      ((rel.filterMap (h2hContrib current_date ID1)).map Prod.snd).sum /
        (rel.map (fun r => discount_weight current_date r.date 0.8)).sum)

theorem h2h_sums (current : SumoDate) (ID1 ID2 : ℤ) (hne : ID1 ≠ ID2)
    (rel : List H2HRow)
    (hmatch : ∀ r ∈ rel, (r.id1 = ID1 ∧ r.id2 = ID2) ∨
      (r.id1 = ID2 ∧ r.id2 = ID1))
    (hclean : ∀ r ∈ rel,
      (r.outcome1 = "shiro".toList ∧ r.outcome2 = "kuro".toList) ∨
      (r.outcome1 = "kuro".toList ∧ r.outcome2 = "shiro".toList)) :
    ((rel.filterMap (h2hContrib current ID1)).map Prod.fst).sum +
      ((rel.filterMap (h2hContrib current ID1)).map Prod.snd).sum =
      (rel.map (fun r => discount_weight current r.date 0.8)).sum := by
  induction rel with
  | nil => simp
  | cons r t ih =>
    have hm := hmatch r (List.mem_cons_self _ _)
    have hc := hclean r (List.mem_cons_self _ _)
    have ih' := ih (fun x hx => hmatch x (List.mem_cons_of_mem _ hx))
      (fun x hx => hclean x (List.mem_cons_of_mem _ hx))
    have hks : ¬ (("kuro".toList : List Char) = "shiro".toList ∧
        ("shiro".toList : List Char) = "kuro".toList) := by decide
    have hcontrib : ∃ a b : ℝ, h2hContrib current ID1 r = some (a, b) ∧
        a + b = discount_weight current r.date 0.8 := by
      unfold h2hContrib
      rcases hm with ⟨h1, h2⟩ | ⟨h1, h2⟩
      · rw [if_pos h1]
        rcases hc with ⟨o1, o2⟩ | ⟨o1, o2⟩
        · rw [if_pos ⟨o1, o2⟩]
          exact ⟨_, _, rfl, by ring⟩
        · rw [if_neg (by rw [o1, o2]; exact hks), if_pos ⟨o1, o2⟩]
          exact ⟨_, _, rfl, by ring⟩
      · have h1' : ¬ r.id1 = ID1 := by
          rw [h1]
          exact fun he => hne he.symm
        rw [if_neg h1', if_pos h2]
        rcases hc with ⟨o1, o2⟩ | ⟨o1, o2⟩
        · rw [if_pos ⟨o1, o2⟩]
          exact ⟨_, _, rfl, by ring⟩
        · rw [if_neg (by rw [o1, o2]; exact hks), if_pos ⟨o1, o2⟩]
          exact ⟨_, _, rfl, by ring⟩
    obtain ⟨a, b, hcb, hab⟩ := hcontrib
    simp only [List.filterMap_cons, hcb, List.map_cons, List.sum_cons]
    linarith

theorem weights_sum_pos (current : SumoDate) (rel : List H2HRow)
    (h : rel ≠ []) :
    0 < (rel.map (fun r => discount_weight current r.date 0.8)).sum := by
  cases rel with
  | nil => cases h rfl
  | cons r t =>
    simp only [List.map_cons, List.sum_cons]
    have h1 : 0 < discount_weight current r.date 0.8 :=
      discount_weight_pos _ _ (by norm_num)
    have h2 : 0 ≤ (t.map (fun r => discount_weight current r.date 0.8)).sum := by
      apply List.sum_nonneg
      intro x hx
      rcases List.mem_map.mp hx with ⟨r', _, rfl⟩
      exact (discount_weight_pos _ _ (by norm_num)).le
    linarith

/-- C1: over any history whose rows all concern the queried pair (in
either orientation) and all have a clean win/loss outcome pair, the two
returned win rates sum exactly to 1; the empty history returns
(0.5, 0.5). -/
theorem calculate_h2h_wp_spec (current : SumoDate) (rel : List H2HRow)
    (ID1 ID2 : ℤ) (hne : ID1 ≠ ID2)
    (hmatch : ∀ r ∈ rel, (r.id1 = ID1 ∧ r.id2 = ID2) ∨
      (r.id1 = ID2 ∧ r.id2 = ID1))
    (hclean : ∀ r ∈ rel,
      (r.outcome1 = "shiro".toList ∧ r.outcome2 = "kuro".toList) ∨
      (r.outcome1 = "kuro".toList ∧ r.outcome2 = "shiro".toList)) :
    (rel ≠ [] → (calculate_h2h_wp current rel ID1).1 +
      (calculate_h2h_wp current rel ID1).2 = 1) ∧
    calculate_h2h_wp current [] ID1 = (0.5, 0.5) := by
  constructor
  · intro hrel
    unfold calculate_h2h_wp
    rw [if_neg (by simpa [List.isEmpty_iff] using hrel)]
    dsimp only
    rw [div_add_div_same, h2h_sums current ID1 ID2 hne rel hmatch hclean,
      div_self (ne_of_gt (weights_sum_pos current rel hrel))]
  · rfl

/-- C1 witness: a single clean-outcome match between competitors 1 and
2, one year before the reference date. -/
theorem calculate_h2h_wp_spec_witness :
    ((calculate_h2h_wp ⟨2020, 1, 1⟩
        [⟨⟨2019, 1, 1⟩, 1, 2, "shiro".toList, "kuro".toList⟩] 1).1 +
      (calculate_h2h_wp ⟨2020, 1, 1⟩
        [⟨⟨2019, 1, 1⟩, 1, 2, "shiro".toList, "kuro".toList⟩] 1).2 = 1) ∧
    calculate_h2h_wp ⟨2020, 1, 1⟩ ([] : List H2HRow) 1 = (0.5, 0.5) := by
  have h := calculate_h2h_wp_spec ⟨2020, 1, 1⟩
    [⟨⟨2019, 1, 1⟩, 1, 2, "shiro".toList, "kuro".toList⟩] 1 2 (by decide)
    (by intro r hr; fin_cases hr; left; exact ⟨rfl, rfl⟩)
    (by intro r hr; fin_cases hr; left; exact ⟨rfl, rfl⟩)
  exact ⟨h.1 (by simp), h.2⟩
